/-
Verification of the blockscout-api-proxy reverse proxy (Go).

Shallow embedding of the core request path: the whitelist store
(models/token.go and the extended duplicate definition of the models
package), the backend client's token fetch and error classification
(client package), the token filter handler and the generic proxy
handler (middleware package), and the router (main.go).

Go-specific semantics that matter here are modelled explicitly:
a Go slice is either nil or a (possibly empty) list — encoding/json
marshals a nil slice as null and an empty non-nil slice as [] — and
fmt.Errorf with %w wraps an inner error whose text is appended after
": ".  JSON unmarshalling of untrusted input (stdlib json.Unmarshal)
is represented by its outcome: either a decode error or the decoded
struct fields.
-/
import Mathlib

namespace GoProxy

/-! ### Go slices

A Go slice value is either nil or a list of elements.  The distinction
is observable through encoding/json: a nil slice marshals to `null`,
an empty non-nil slice to `[]`.  `append` on a nil slice produces a
non-nil slice. -/

inductive GoSlice (α : Type) where
  | nil : GoSlice α
  | ofList : List α → GoSlice α
  deriving DecidableEq, Repr

def GoSlice.toList {α : Type} : GoSlice α → List α
  | .nil => []
  | .ofList l => l

def GoSlice.length {α : Type} (s : GoSlice α) : Nat :=
  s.toList.length

def GoSlice.isNil {α : Type} : GoSlice α → Bool
  | .nil => true
  | .ofList _ => false

/-- Go `append(s, x)`: appending to a nil slice yields a non-nil slice. -/
def GoSlice.push {α : Type} : GoSlice α → α → GoSlice α
  | .nil, x => .ofList [x]
  | .ofList l, x => .ofList (l ++ [x])

/-! ### Go strings package helpers -/

/-- Membership of `sub` as a contiguous sublist of `s`. -/
def isSubChars (sub : List Char) : List Char → Bool
  | [] => sub.isEmpty
  | c :: rest => sub.isPrefixOf (c :: rest) || isSubChars sub rest

/-- Go `strings.Contains s sub`. -/
def strContainsSub (s sub : String) : Bool :=
  isSubChars sub.toList s.toList

/-- Go `strings.HasSuffix s suf`. -/
def strHasSuffixB (s suf : String) : Bool :=
  suf.toList.isSuffixOf s.toList

/-- Go `strings.HasPrefix s pre`. -/
def strHasPrefixB (s pre : String) : Bool :=
  pre.toList.isPrefixOf s.toList

/-- Go `strings.TrimSuffix s suf`: removes one occurrence of the suffix
if present, otherwise returns the string unchanged. -/
def goTrimSuffix (s suf : String) : String :=
  if strHasSuffixB s suf then
    String.mk (s.toList.take (s.toList.length - suf.toList.length))
  else s

/-- Go `strings.ToLower` (ASCII behaviour suffices for the error texts here). -/
def strToLower (s : String) : String :=
  String.mk (s.toList.map Char.toLower)

/-! ### encoding/json string output

Only the envelope structure (object braces, `null` for nil slices,
arrays for non-nil slices, quoted strings) is needed by the claims;
the escaper covers quote, backslash and the common control characters
(Go additionally HTML-escapes a few characters, none of which occur
in the inputs used by the theorems below). -/

def jsonEscapeChar (c : Char) : List Char :=
  if c = '"' then ['\\', '"']
  else if c = '\\' then ['\\', '\\']
  else if c = '\n' then ['\\', 'n']
  else if c = '\t' then ['\\', 't']
  else if c = '\r' then ['\\', 'r']
  else [c]

def jsonQuote (s : String) : String :=
  "\"" ++ String.mk (s.toList.flatMap jsonEscapeChar) ++ "\""

def jsonOptString : Option String → String
  | none => "null"
  | some s => jsonQuote s

def joinComma : List String → String
  | [] => ""
  | [s] => s
  | s :: rest => s ++ "," ++ joinComma rest

/-! ## models package — src/models/token.go -/

/-- `models.Token` (src/models/token.go lines 14-28). -/
structure Token where
  address : String
  addressHash : String
  circulatingMarketCap : Option String
  decimals : String
  exchangeRate : Option String
  holders : String
  holdersCount : String
  iconURL : Option String
  name : String
  symbol : String
  totalSupply : String
  typ : String
  volume24h : Option String
  deriving DecidableEq, Repr

/-- `models.TokenResponse`: `Items []Token` with tag `json:"items"`. -/
structure TokenResponse where
  items : GoSlice Token
  deriving DecidableEq, Repr

/-- `models.ErrorResponse` (src/models/error.go). -/
structure ErrorResponse where
  error : String
  message : String
  deriving DecidableEq, Repr

/-- `models.TokenWhitelist` (src/models/token.go): the mutex only guards
concurrent access and has no sequential semantics, so the state is the
`Addresses` slice. -/
structure TokenWhitelist where
  addresses : GoSlice String
  deriving DecidableEq, Repr

/-- `models.NewTokenWhitelist`: `Addresses: make([]string, 0)` — an empty
non-nil slice. -/
def NewTokenWhitelist : TokenWhitelist :=
  ⟨.ofList []⟩

/-- Outcome of `json.Unmarshal(data, &temp)` for the legacy temp struct
`{ Addresses []string `+"`"+`json:"addresses"`+"`"+` }`: either a decode
error, or the decoded field (`none` when the key is absent or null). -/
inductive AddrUnmarshal where
  | err : String → AddrUnmarshal
  | ok : Option (List String) → AddrUnmarshal
  deriving DecidableEq, Repr

/-- `(*TokenWhitelist).LoadFromJSON` (src/models/token.go lines 49-78),
with the unmarshal step abstracted by its outcome.  Returns the Go
error (as an optional message) and the post-state. -/
def LoadFromJSON (tw : TokenWhitelist) (r : AddrUnmarshal) :
    Option String × TokenWhitelist :=
  match r with
  | .err m => (some m, tw)
  | .ok addrs =>
    match addrs with
    | none => (none, ⟨.ofList []⟩)
    | some l => (none, ⟨.ofList l⟩)

/-- `(*TokenWhitelist).Contains` (src/models/token.go lines 81-91). -/
def Contains (tw : TokenWhitelist) (address : String) : Bool :=
  tw.addresses.toList.any (fun addr => addr == address)

/-- `(*TokenWhitelist).GetAddresses` (defensive copy; copying is the
identity in the embedding). -/
def GetAddresses (tw : TokenWhitelist) : List String :=
  tw.addresses.toList

/-- `(*TokenWhitelist).Size` (src/models/token.go lines 104-109). -/
def Size (tw : TokenWhitelist) : Nat :=
  tw.addresses.length

/-- The scan loop of `Validate`: first empty address, then first
duplicate, in element order (src/models/token.go lines 173-183). -/
def validateAddrs : List String → Nat → List String → Option String
  | [], _, _ => none
  | addr :: rest, i, seen =>
    if addr = "" then some ("empty address at index " ++ toString i)
    else if seen.contains addr then some ("duplicate address found: " ++ addr)
    else validateAddrs rest (i + 1) (addr :: seen)

/-- `(*TokenWhitelist).Validate` (src/models/token.go lines 165-186). -/
def Validate (tw : TokenWhitelist) : Option String :=
  match tw.addresses with
  | .nil => some "addresses slice is nil"
  | .ofList l => validateAddrs l 0 []

/-- `(*TokenWhitelist).AddAddress` (src/models/token.go lines 189-206). -/
def AddAddress (tw : TokenWhitelist) (address : String) :
    Option String × TokenWhitelist :=
  if address = "" then (some "address cannot be empty", tw)
  else if tw.addresses.toList.any (fun addr => addr == address) then
    (some ("address " ++ address ++ " already exists in whitelist"), tw)
  else (none, ⟨tw.addresses.push address⟩)

/-- The scan of `RemoveAddress`: remove the first occurrence, reporting
whether one was found. -/
def removeFirst : List String → String → Option (List String)
  | [], _ => none
  | x :: rest, a =>
    if x = a then some rest
    else (removeFirst rest a).map (fun l => x :: l)

/-- `(*TokenWhitelist).RemoveAddress` (src/models/token.go lines 209-220).
Removal re-slices a non-nil slice, so the result stays non-nil; on a nil
slice the loop body never runs. -/
def RemoveAddress (tw : TokenWhitelist) (address : String) :
    Bool × TokenWhitelist :=
  match tw.addresses with
  | .nil => (false, tw)
  | .ofList l =>
    match removeFirst l address with
    | none => (false, tw)
    | some l2 => (true, ⟨.ofList l2⟩)

/-- `(*TokenWhitelist).Clear` (src/models/token.go lines 223-228). -/
def Clear (_tw : TokenWhitelist) : TokenWhitelist :=
  ⟨.ofList []⟩

/-- The observable state of the whitelist file for `LoadFromFile`:
missing, unreadable, or readable with a given unmarshal outcome. -/
inductive WhitelistFile where
  | missing : WhitelistFile
  | readFailure : String → WhitelistFile
  | withBytes : AddrUnmarshal → WhitelistFile
  deriving DecidableEq, Repr

/-- `(*TokenWhitelist).LoadFromFile` (src/models/token.go lines 112-162):
missing file → success, state untouched; read failure → error, state
untouched; then `LoadFromJSON`, then `Validate` (a validation failure is
reported after the state has already been swapped). -/
def LoadFromFile (tw : TokenWhitelist) (filename : String)
    (f : WhitelistFile) : Option String × TokenWhitelist :=
  match f with
  | .missing => (none, tw)
  | .readFailure m =>
    (some ("failed to read whitelist file " ++ filename ++ ": " ++ m), tw)
  | .withBytes r =>
    let res := LoadFromJSON tw r
    match res.1 with
    | some m =>
      (some ("failed to parse whitelist file " ++ filename ++ ": " ++ m), res.2)
    | none =>
      match Validate res.2 with
      | some m =>
        (some ("whitelist validation failed for file " ++ filename ++ ": " ++ m),
          res.2)
      | none => (none, res.2)

/-! ## extended models package — src/unnamed/part_004

A second, extended definition of the models package appears in the
source (the spec's design notes call the two out as duplicate model
definitions).  Its `LoadFromJSON` additionally understands the
`tokens` array shape. -/

namespace Ext

/-- `models.WhitelistToken` (src/unnamed/part_004 lines 36-39). -/
structure WhitelistToken where
  address : String
  iconURL : Option String
  deriving DecidableEq, Repr

/-- `models.TokenWhitelist` of the extended definition: `Tokens` plus the
legacy `Addresses` slice. -/
structure TokenWhitelist where
  tokens : GoSlice WhitelistToken
  addresses : GoSlice String
  deriving DecidableEq, Repr

/-- `models.NewTokenWhitelist` (src/unnamed/part_004 lines 49-53): only
`Addresses` is initialized; `Tokens` is the zero value, a nil slice. -/
def NewTokenWhitelist : TokenWhitelist :=
  ⟨.nil, .ofList []⟩

/-- Outcome of `json.Unmarshal` for the extended temp struct with the
optional `tokens` and `addresses` fields. -/
inductive ExtUnmarshal where
  | err : String → ExtUnmarshal
  | ok : Option (List WhitelistToken) → Option (List String) → ExtUnmarshal
  deriving DecidableEq, Repr

/-- The legacy-format branch of the extended `LoadFromJSON`
(src/unnamed/part_004 lines 85-99): use `addresses` when non-nil,
otherwise make both slices empty. -/
def loadLegacyBranch (addrs : Option (List String)) :
    Option String × TokenWhitelist :=
  match addrs with
  | some l =>
    (none, ⟨.ofList (l.map (fun a => ⟨a, none⟩)), .ofList l⟩)
  | none => (none, ⟨.ofList [], .ofList []⟩)

/-- `(*TokenWhitelist).LoadFromJSON` of the extended definition
(src/unnamed/part_004 lines 56-107): a non-nil, non-empty `tokens` array
wins and the addresses are derived from it in order; otherwise a non-nil
`addresses` array is used; otherwise the whitelist becomes empty.  A
decode error leaves the state untouched. -/
def LoadFromJSON (tw : TokenWhitelist) (r : ExtUnmarshal) :
    Option String × TokenWhitelist :=
  match r with
  | .err m => (some m, tw)
  | .ok tks addrs =>
    match tks with
    | some ts =>
      if ts.length > 0 then
        (none, ⟨.ofList ts, .ofList (ts.map (fun t => t.address))⟩)
      else loadLegacyBranch addrs
    | none => loadLegacyBranch addrs

end Ext

/-! ## client package — src/client (HTTPClient, error types, predicates) -/

/-- Go error values as they occur in this code base: the client's own
`NetworkError` (which wraps an inner error) and `APIError`, typed
stdlib transport errors (`net.OpError`, `url.Error`, `net.DNSError`),
plain `fmt.Errorf` errors, and `fmt.Errorf("...: %w", err)` wrappers. -/
inductive GoError where
  | networkError : String → String → GoError → GoError
  | apiError : Nat → String → String → GoError
  | stdNetError : String → GoError
  | errorf : String → GoError
  | wrap : String → GoError → GoError
  deriving DecidableEq, Repr

/-- The `Error()` rendering of each error value: `NetworkError.Error`,
`APIError.Error` (src/client/client_error_test.go lines 679-696) and
the `fmt.Errorf` formats. -/
def errorString : GoError → String
  | .networkError op url inner =>
    "network error during " ++ op ++ " to " ++ url ++ ": " ++ errorString inner
  | .apiError code status url =>
    "API error: " ++ status ++ " (" ++ toString code ++ ") from " ++ url
  | .stdNetError m => m
  | .errorf m => m
  | .wrap pre inner => pre ++ ": " ++ errorString inner

/-- `errors.As(err, &netErr)` for `*NetworkError`: the unwrap chain
(`%w` wrappers) reaches a `NetworkError`. -/
def hasNetworkErrorType : GoError → Bool
  | .networkError _ _ _ => true
  | .wrap _ inner => hasNetworkErrorType inner
  | _ => false

/-- `errors.As` for the stdlib transport error types (`net.OpError`,
`url.Error`, `net.DNSError`); `NetworkError.Unwrap` exposes its inner
error to the chain. -/
def hasStdNetType : GoError → Bool
  | .stdNetError _ => true
  | .wrap _ inner => hasStdNetType inner
  | .networkError _ _ inner => hasStdNetType inner
  | _ => false

/-- The textual fallback keyword list of `IsNetworkError`
(src/client/client_error_test.go lines 719-723). -/
def networkKeywords : List String :=
  ["network", "timeout", "connection", "refused", "unreachable",
   "no such host", "dns", "dial", "i/o timeout", "broken pipe"]

/-- `client.IsNetworkError` (src/client/client_error_test.go lines
699-730) on a non-nil error: typed checks first, then keyword matching
on the lowercased error text. -/
def IsNetworkError (err : GoError) : Bool :=
  hasNetworkErrorType err || hasStdNetType err ||
    networkKeywords.any (fun k => strContainsSub (strToLower (errorString err)) k)

/-- `client.IsAPIError` (src/client/client_error_test.go lines 735-738):
`errors.As` for `*APIError` through the unwrap chain. -/
def IsAPIError : GoError → Bool
  | .apiError _ _ _ => true
  | .wrap _ inner => IsAPIError inner
  | .networkError _ _ inner => IsAPIError inner
  | _ => false

/-- The body bytes of a 200 tokens response, represented by their
observable JSON outcome: empty (zero bytes), undecodable, or decoding
to a `TokenResponse`. -/
inductive TokensBody where
  | emptyBody : TokensBody
  | undecodable : String → TokensBody
  | decoded : TokenResponse → TokensBody
  deriving DecidableEq, Repr

/-- `client.parseJSON` (src/client/client_error_test.go lines 741-751):
zero-length data → "empty response body"; a decode failure is wrapped
as "invalid JSON: %w". -/
def parseJSON : TokensBody → Except GoError TokenResponse
  | .emptyBody => .error (.errorf "empty response body")
  | .undecodable m => .error (.wrap "invalid JSON" (.errorf m))
  | .decoded tr => .ok tr

/-- The observable outcome of the single outbound HTTP exchange made by
`GetTokens`: transport failure, a response whose body fails to read, or
a response with status and body bytes. -/
inductive FetchOutcome where
  | transportFailure : GoError → FetchOutcome
  | bodyReadFailure : Nat → String → String → FetchOutcome
  | response : Nat → String → TokensBody → FetchOutcome
  deriving DecidableEq, Repr

/-- `(*HTTPClient).GetTokens` (src/client/client_error_test.go lines
536-610): transport failure → `NetworkError{get_tokens, url}`; non-200
→ `APIError{code, status, url}`; body read failure → wrapped read
error; then `parseJSON`, whose failure is wrapped as
"failed to parse tokens response: %w". -/
def GetTokens (backendURL : String) (outcome : FetchOutcome) :
    Except GoError TokenResponse :=
  let targetURL := backendURL ++ "/tokens"
  match outcome with
  | .transportFailure e => .error (.networkError "get_tokens" targetURL e)
  | .bodyReadFailure code status m =>
    if code ≠ 200 then .error (.apiError code status targetURL)
    else .error (.wrap "failed to read response body" (.errorf m))
  | .response code status body =>
    if code ≠ 200 then .error (.apiError code status targetURL)
    else
      match parseJSON body with
      | .error e => .error (.wrap "failed to parse tokens response" e)
      | .ok tr => .ok tr

/-! ## middleware package — token filter handler
(src/middleware/token_filter.go) -/

/-- `(*TokenFilterHandler).filterTokens` (src/middleware/token_filter.go
lines 77-114).  The backend response is a pointer (`Option`).  A nil or
zero-length response yields a fresh empty (non-nil) items slice; an
empty whitelist passes the response through unchanged; otherwise the
loop appends matching tokens to `filteredTokens`, which is declared
with `var` and therefore starts as a nil slice. -/
def filterTokens (wl : TokenWhitelist) (response : Option TokenResponse) :
    TokenResponse :=
  match response with
  | none => ⟨.ofList []⟩
  | some resp =>
    if resp.items.length = 0 then ⟨.ofList []⟩
    else if Size wl = 0 then resp
    else
      ⟨resp.items.toList.foldl
        (fun acc t => if Contains wl t.address then acc.push t else acc)
        GoSlice.nil⟩

/-- Marshalling of one `models.Token` by encoding/json, fields in struct
order with their lowercase tags. -/
def jsonOfToken (t : Token) : String :=
  "\x7b\"address\":" ++ jsonQuote t.address ++
  ",\"address_hash\":" ++ jsonQuote t.addressHash ++
  ",\"circulating_market_cap\":" ++ jsonOptString t.circulatingMarketCap ++
  ",\"decimals\":" ++ jsonQuote t.decimals ++
  ",\"exchange_rate\":" ++ jsonOptString t.exchangeRate ++
  ",\"holders\":" ++ jsonQuote t.holders ++
  ",\"holders_count\":" ++ jsonQuote t.holdersCount ++
  ",\"icon_url\":" ++ jsonOptString t.iconURL ++
  ",\"name\":" ++ jsonQuote t.name ++
  ",\"symbol\":" ++ jsonQuote t.symbol ++
  ",\"total_supply\":" ++ jsonQuote t.totalSupply ++
  ",\"type\":" ++ jsonQuote t.typ ++
  ",\"volume_24h\":" ++ jsonOptString t.volume24h ++ "\x7d"

/-- Marshalling of the items slice: a nil slice marshals to `null`, a
non-nil slice to a JSON array. -/
def jsonOfItems : GoSlice Token → String
  | .nil => "null"
  | .ofList l => "[" ++ joinComma (l.map jsonOfToken) ++ "]"

/-- Marshalling of `models.TokenResponse` as written by the handler's
`json.NewEncoder(w).Encode` (the encoder additionally appends a
newline, which is immaterial to the claims). -/
def jsonOfTokenResponse (r : TokenResponse) : String :=
  "\x7b\"items\":" ++ jsonOfItems r.items ++ "\x7d"

/-- Marshalling of `models.ErrorResponse`. -/
def jsonOfErrorResponse (e : ErrorResponse) : String :=
  "\x7b\"error\":" ++ jsonQuote e.error ++
  ",\"message\":" ++ jsonQuote e.message ++ "\x7d"

/-- The observable HTTP response produced by an error path of the token
filter handler. -/
structure HTTPErrorOut where
  status : Nat
  contentType : String
  body : String
  deriving DecidableEq, Repr

/-- `(*TokenFilterHandler).writeErrorResponse`
(src/middleware/token_filter.go lines 152-167): sets
`Content-Type: application/json`, writes the status code, and encodes
an `ErrorResponse`. -/
def writeErrorResponse (statusCode : Nat) (message detail : String) :
    HTTPErrorOut :=
  ⟨statusCode, "application/json", jsonOfErrorResponse ⟨message, detail⟩⟩

/-- `(*TokenFilterHandler).handleError` (src/middleware/token_filter.go
lines 117-149): network error → 502 "Backend API unreachable"; else API
error → 502 "Backend API error"; else 500 "Internal server error",
each with the error's text as the message. -/
def handleError (err : GoError) : HTTPErrorOut :=
  if IsNetworkError err then
    writeErrorResponse 502 "Backend API unreachable" (errorString err)
  else if IsAPIError err then
    writeErrorResponse 502 "Backend API error" (errorString err)
  else
    writeErrorResponse 500 "Internal server error" (errorString err)

/-- Modelled from the claim's words (C4), for comparison with
`handleError`: network error → HTTP 502 with
`{"error":"Backend API unreachable","message":<text>}`; else API error
→ HTTP 502 with `{"error":"Backend API error","message":<text>}`; else
HTTP 500 with `{"error":"Internal server error","message":<text>}`,
always with Content-Type application/json and a JSON object body. -/
def handleErrorPerClaim (err : GoError) : HTTPErrorOut :=
  if IsNetworkError err then
    ⟨502, "application/json",
      jsonOfErrorResponse ⟨"Backend API unreachable", errorString err⟩⟩
  else if IsAPIError err then
    ⟨502, "application/json",
      jsonOfErrorResponse ⟨"Backend API error", errorString err⟩⟩
  else
    ⟨500, "application/json",
      jsonOfErrorResponse ⟨"Internal server error", errorString err⟩⟩

/-! ## middleware package — generic proxy handler
(src/middleware/proxy_handler.go) -/

/-- `(*StandardProxyHandler).isHopByHopHeader`
(src/middleware/proxy_handler.go lines 103-121). -/
def isHopByHopHeader (header : String) : Bool :=
  ["Connection", "Keep-Alive", "Proxy-Authenticate", "Proxy-Authorization",
   "Te", "Trailers", "Transfer-Encoding", "Upgrade"].any
    (fun h => h == header)

/-- `(*StandardProxyHandler).isCORSHeader`
(src/middleware/proxy_handler.go lines 124-142). -/
def isCORSHeader (header : String) : Bool :=
  ["Access-Control-Allow-Origin", "Access-Control-Allow-Methods",
   "Access-Control-Allow-Headers", "Access-Control-Allow-Credentials",
   "Access-Control-Expose-Headers", "Access-Control-Max-Age",
   "Access-Control-Request-Method", "Access-Control-Request-Headers"].any
    (fun h => h == header)

/-- An `http.Header` as a list of (canonical key, values) entries. -/
def Header : Type := List (String × List String)

/-- `(*StandardProxyHandler).copyHeaders`
(src/middleware/proxy_handler.go lines 84-100) into an initially
untouched destination: each entry is skipped when its key is
hop-by-hop or CORS, otherwise every one of its values is added in
order. -/
def copyHeaders (src : List (String × List String)) :
    List (String × List String) :=
  src.filter (fun kv => !isHopByHopHeader kv.1 && !isCORSHeader kv.1)

/-- A backend response as seen by the proxy handler's success path. -/
structure BackendResponse where
  statusCode : Nat
  headers : List (String × List String)
  body : String
  deriving DecidableEq, Repr

/-- A client-visible response. -/
structure ClientResponse where
  statusCode : Nat
  headers : List (String × List String)
  body : String
  deriving DecidableEq, Repr

/-- The success path of `(*StandardProxyHandler).ServeHTTP`
(src/middleware/proxy_handler.go lines 61-74): copy headers, write the
backend status code unchanged, stream the body. -/
def proxyRelay (resp : BackendResponse) : ClientResponse :=
  ⟨resp.statusCode, copyHeaders resp.headers, resp.body⟩

/-! ## router — src/main.go -/

/-- `(*ProxyServer).isTokensEndpoint` (src/main.go lines 116-122). -/
def isTokensEndpoint (path : String) : Bool :=
  let normalizedPath := goTrimSuffix path "/"
  normalizedPath == "/api/v2/tokens" || strHasPrefixB path "/api/v2/tokens?"

/-- The two dispatch targets of `routeHandler`. -/
inductive RouteTarget where
  | tokenFilter : RouteTarget
  | standardProxy : RouteTarget
  deriving DecidableEq, Repr

/-- The dispatch decision of `(*ProxyServer).routeHandler`
(src/main.go lines 103-113). -/
def routeHandler (path : String) : RouteTarget :=
  if isTokensEndpoint path then .tokenFilter else .standardProxy

/-! ## whitelist operation sequences (for the reachability invariant) -/

/-- One mutating call on the legacy `TokenWhitelist`. -/
inductive WhitelistOp where
  | load : AddrUnmarshal → WhitelistOp
  | add : String → WhitelistOp
  | remove : String → WhitelistOp
  | clear : WhitelistOp
  deriving DecidableEq, Repr

/-- Apply one call, discarding the returned error/flag. -/
def applyOp (tw : TokenWhitelist) : WhitelistOp → TokenWhitelist
  | .load r => (LoadFromJSON tw r).2
  | .add a => (AddAddress tw a).2
  | .remove a => (RemoveAddress tw a).2
  | .clear => Clear tw

/-- Apply a finite call sequence, left to right. -/
def applyOps (tw : TokenWhitelist) (ops : List WhitelistOp) : TokenWhitelist :=
  ops.foldl applyOp tw

/-- A concrete token used by the concrete-input theorems, mirroring the
fixture tokens of the handler tests. -/
def sampleToken (a : String) : Token :=
  ⟨a, "", none, "", none, "", "", none, "Token1", "TK1", "", "", none⟩

/-! ## Helper lemmas -/

theorem GoSlice.toList_push {α : Type} (s : GoSlice α) (x : α) :
    (s.push x).toList = s.toList ++ [x] := by
  cases s <;> rfl

theorem GoSlice.isNil_push {α : Type} (s : GoSlice α) (x : α) :
    (s.push x).isNil = false := by
  cases s <;> rfl

theorem removeFirst_eq_none_iff (l : List String) (a : String) :
    removeFirst l a = none ↔ l.any (fun x => x == a) = false := by
  induction l with
  | nil => simp [removeFirst]
  | cons x rest ih =>
    by_cases hx : x = a
    · simp [removeFirst, hx]
    · simp [removeFirst, hx, ih, Option.map_eq_none']

theorem removeFirst_count (l : List String) (a : String) :
    ∀ l2, removeFirst l a = some l2 → l2.count a = l.count a - 1 := by
  induction l with
  | nil => intro l2 h; simp [removeFirst] at h
  | cons x rest ih =>
    intro l2 h
    by_cases hx : x = a
    · simp [removeFirst, hx] at h
      subst h; subst hx
      simp [List.count_cons]
    · simp [removeFirst, hx] at h
      obtain ⟨l3, h3, hl⟩ := h
      subst hl
      have hxa : (x == a) = false := by simp [hx]
      have hrest := ih l3 h3
      simp [List.count_cons, hxa, hrest]

theorem validateAddrs_ne_nilMsg (l : List String) :
    ∀ i seen, validateAddrs l i seen ≠ some "addresses slice is nil" := by
  induction l with
  | nil => intro i seen; simp [validateAddrs]
  | cons x rest ih =>
    intro i seen
    simp only [validateAddrs]
    split_ifs with h1 h2
    · intro h
      have h2 := congrArg String.length (Option.some.inj h)
      rw [String.length_append] at h2
      have h3 : "empty address at index ".length = 23 := rfl
      have h4 : "addresses slice is nil".length = 22 := rfl
      omega
    · intro h
      have h5 := congrArg String.length (Option.some.inj h)
      rw [String.length_append] at h5
      have h3 : "duplicate address found: ".length = 25 := rfl
      have h4 : "addresses slice is nil".length = 22 := rfl
      omega
    · exact ih (i + 1) (x :: seen)

theorem applyOp_notNil (tw : TokenWhitelist) (op : WhitelistOp)
    (h : tw.addresses.isNil = false) :
    (applyOp tw op).addresses.isNil = false := by
  cases op with
  | load r =>
    cases r with
    | err m => exact h
    | ok addrs => cases addrs <;> rfl
  | add a =>
    simp only [applyOp, AddAddress]
    by_cases ha : a = ""
    · simpa [ha] using h
    · by_cases hc : tw.addresses.toList.any (fun addr => addr == a)
      · simpa [ha, hc] using h
      · simp [ha, hc, GoSlice.isNil_push]
  | remove a =>
    simp only [applyOp, RemoveAddress]
    cases htw : tw.addresses with
    | nil => rw [htw] at h; simp [GoSlice.isNil] at h
    | ofList l =>
      cases hr : removeFirst l a with
      | none => simpa [hr] using h
      | some l2 => simp [hr, GoSlice.isNil]
  | clear => rfl

theorem applyOps_notNil (ops : List WhitelistOp) :
    ∀ tw : TokenWhitelist, tw.addresses.isNil = false →
      (applyOps tw ops).addresses.isNil = false := by
  induction ops with
  | nil => intro tw h; exact h
  | cons op rest ih =>
    intro tw h
    exact ih (applyOp tw op) (applyOp_notNil tw op h)

/-! ## Claim theorems -/

/-- C1: the claim states that whenever nothing matches, the serialized
result is `{"items":[]}`, never null.  The code violates this: with the
non-empty whitelist `["0xaaaa"]` and a backend response holding one
token with address `"0x1234"` (no match), the loop never appends to the
`var`-declared slice, so `filterTokens` returns a nil `Items` slice and
the handler serializes `{"items":null}` — contradicting the claim and
the function's own comment ("empty array if no matches"). -/
theorem filterTokens_no_match_serializes_null :
    filterTokens ⟨.ofList ["0xaaaa"]⟩
        (some ⟨.ofList [sampleToken "0x1234"]⟩)
      = ⟨GoSlice.nil⟩ ∧
    jsonOfTokenResponse
        (filterTokens ⟨.ofList ["0xaaaa"]⟩
          (some ⟨.ofList [sampleToken "0x1234"]⟩))
      = "\x7b\"items\":null\x7d" ∧
    jsonOfTokenResponse
        (filterTokens ⟨.ofList ["0xaaaa"]⟩
          (some ⟨.ofList [sampleToken "0x1234"]⟩))
      ≠ "\x7b\"items\":[]\x7d" := by
  refine ⟨by decide, by decide, by decide⟩

/-- C2: if the whitelist's `Size()` is 0 at filtering time, the token
filter returns the full, unfiltered token list: the returned items are
exactly the input items, and for a non-empty input the response value
is returned unchanged (the zero-length input is rebuilt as a fresh
empty-items response by the preceding branch, with the same — empty —
token list). -/
theorem filterTokens_empty_whitelist_passthrough :
    ∀ (wl : TokenWhitelist) (resp : TokenResponse), Size wl = 0 →
      (filterTokens wl (some resp)).items.toList = resp.items.toList ∧
      (resp.items.length ≠ 0 → filterTokens wl (some resp) = resp) := by
  intro wl resp hw
  by_cases h0 : resp.items.length = 0
  · constructor
    · have hlist : resp.items.toList = [] := by
        have hl : resp.items.toList.length = 0 := h0
        exact List.length_eq_zero.mp hl
      have hred : filterTokens wl (some resp) = ⟨GoSlice.ofList []⟩ := by
        simp [filterTokens, h0]
      rw [hred, hlist]
      rfl
    · intro hne; exact absurd h0 hne
  · exact ⟨by simp [filterTokens, h0, hw], fun _ => by simp [filterTokens, h0, hw]⟩

theorem filterTokens_empty_whitelist_passthrough_witness :
    (filterTokens ⟨.ofList []⟩ (some ⟨.ofList [sampleToken "0xA"]⟩)).items.toList
      = (GoSlice.ofList [sampleToken "0xA"]).toList ∧
    filterTokens ⟨.ofList []⟩ (some ⟨.ofList [sampleToken "0xA"]⟩)
      = ⟨.ofList [sampleToken "0xA"]⟩ :=
  ⟨(filterTokens_empty_whitelist_passthrough ⟨.ofList []⟩
      ⟨.ofList [sampleToken "0xA"]⟩ (by decide)).1,
   (filterTokens_empty_whitelist_passthrough ⟨.ofList []⟩
      ⟨.ofList [sampleToken "0xA"]⟩ (by decide)).2 (by decide)⟩

/-- C3: the router dispatches a path to the token filter handler exactly
when the path with one trailing slash stripped equals `/api/v2/tokens`
or the raw path starts with `/api/v2/tokens?`; in particular
`/api/v2/tokens/123` goes to the generic proxy handler. -/
theorem routeHandler_tokens_dispatch :
    ∀ p : String,
      (routeHandler p = RouteTarget.tokenFilter ↔
        (goTrimSuffix p "/" = "/api/v2/tokens" ∨
          strHasPrefixB p "/api/v2/tokens?" = true)) ∧
      routeHandler "/api/v2/tokens/123" = RouteTarget.standardProxy := by
  intro p
  have hiff : isTokensEndpoint p = true ↔
      (goTrimSuffix p "/" = "/api/v2/tokens" ∨
        strHasPrefixB p "/api/v2/tokens?" = true) := by
    simp [isTokensEndpoint]
  constructor
  · rw [← hiff]
    unfold routeHandler
    by_cases h : isTokensEndpoint p = true <;> simp [h]
  · decide

/-- C4: the token filter handler's error path responds exactly as the
claim's case analysis prescribes (network error → 502 "Backend API
unreachable"; else API error → 502 "Backend API error"; else 500
"Internal server error", each with the error's text as the message),
with Content-Type application/json and a JSON-object body on every
error path. -/
theorem handleError_matches_claim :
    ∀ e : GoError,
      handleError e = handleErrorPerClaim e ∧
      (handleError e).contentType = "application/json" ∧
      ∃ m, (handleError e).body = jsonOfErrorResponse ⟨m, errorString e⟩ := by
  intro e
  by_cases h1 : IsNetworkError e = true
  · exact ⟨by simp [handleError, handleErrorPerClaim, writeErrorResponse, h1],
      by simp [handleError, writeErrorResponse, h1],
      ⟨"Backend API unreachable",
        by simp [handleError, writeErrorResponse, h1]⟩⟩
  · by_cases h2 : IsAPIError e = true
    · exact ⟨by simp [handleError, handleErrorPerClaim, writeErrorResponse, h1, h2],
        by simp [handleError, writeErrorResponse, h1, h2],
        ⟨"Backend API error",
          by simp [handleError, writeErrorResponse, h1, h2]⟩⟩
    · exact ⟨by simp [handleError, handleErrorPerClaim, writeErrorResponse, h1, h2],
        by simp [handleError, writeErrorResponse, h1, h2],
        ⟨"Internal server error",
          by simp [handleError, writeErrorResponse, h1, h2]⟩⟩

/-- C5: the extended `LoadFromJSON` accepts both whitelist shapes: a
`tokens` array with at least one element wins and the addresses are
derived from it, one per token in order; otherwise the `addresses`
array is used; and with neither key present the load succeeds and the
whitelist becomes empty. -/
theorem loadFromJSON_accepts_both_shapes :
    ∀ tw : Ext.TokenWhitelist,
      (∀ (ts : List Ext.WhitelistToken) (addrs : Option (List String)),
        ts ≠ [] →
        Ext.LoadFromJSON tw (.ok (some ts) addrs)
          = (none, ⟨.ofList ts, .ofList (ts.map (fun t => t.address))⟩)) ∧
      (∀ l : List String,
        Ext.LoadFromJSON tw (.ok none (some l))
          = (none, ⟨.ofList (l.map (fun a => ⟨a, none⟩)), .ofList l⟩)) ∧
      (∀ l : List String,
        Ext.LoadFromJSON tw (.ok (some []) (some l))
          = (none, ⟨.ofList (l.map (fun a => ⟨a, none⟩)), .ofList l⟩)) ∧
      Ext.LoadFromJSON tw (.ok none none) = (none, ⟨.ofList [], .ofList []⟩) ∧
      Ext.LoadFromJSON tw (.ok (some []) none)
        = (none, ⟨.ofList [], .ofList []⟩) := by
  intro tw
  refine ⟨?_, fun l => rfl, fun l => rfl, rfl, rfl⟩
  intro ts addrs hts
  have hpos : ts.length > 0 := List.length_pos.mpr hts
  simp [Ext.LoadFromJSON, hpos]

theorem loadFromJSON_accepts_both_shapes_witness :
    Ext.LoadFromJSON Ext.NewTokenWhitelist
        (.ok (some [⟨"0x1", none⟩]) (some ["zzz"]))
      = (none, ⟨.ofList [⟨"0x1", none⟩], .ofList ["0x1"]⟩) :=
  (loadFromJSON_accepts_both_shapes Ext.NewTokenWhitelist).1
    [⟨"0x1", none⟩] (some ["zzz"]) (by decide)

/-- C6: `LoadFromFile` on a missing path reports success and leaves the
whitelist exactly as it was; on a path whose contents fail JSON
decoding it reports an error and leaves the whitelist exactly as it
was. -/
theorem loadFromFile_missing_and_malformed :
    ∀ (tw : TokenWhitelist) (fn : String),
      LoadFromFile tw fn .missing = (none, tw) ∧
      ∀ m : String,
        (LoadFromFile tw fn (.withBytes (.err m))).2 = tw ∧
        (LoadFromFile tw fn (.withBytes (.err m))).1
          = some ("failed to parse whitelist file " ++ fn ++ ": " ++ m) := by
  intro tw fn
  exact ⟨rfl, fun m => ⟨rfl, rfl⟩⟩

/-- C7: `GetTokens` classifies every outcome as the claim states:
transport failure → the client's network error (recognized by
`IsNetworkError`); non-200 status → the client's API error carrying
status code, status text and target URL (recognized by `IsAPIError`);
200 with an empty body → a parse failure wrapping the parsing error
whose text is "empty response body"; 200 with an undecodable body → a
parse failure wrapping the decode error; 200 with a well-formed body →
the decoded `TokenResponse` with no error. -/
theorem getTokens_classification :
    ∀ (url status m : String) (e : GoError) (code : Nat)
      (body : TokensBody) (tr : TokenResponse),
      (GetTokens url (.transportFailure e)
          = .error (.networkError "get_tokens" (url ++ "/tokens") e) ∧
        IsNetworkError (.networkError "get_tokens" (url ++ "/tokens") e)
          = true) ∧
      (code ≠ 200 →
        GetTokens url (.response code status body)
          = .error (.apiError code status (url ++ "/tokens")) ∧
        IsAPIError (.apiError code status (url ++ "/tokens")) = true) ∧
      (GetTokens url (.response 200 status .emptyBody)
          = .error (.wrap "failed to parse tokens response"
              (.errorf "empty response body")) ∧
        errorString (.errorf "empty response body") = "empty response body") ∧
      GetTokens url (.response 200 status (.undecodable m))
          = .error (.wrap "failed to parse tokens response"
              (.wrap "invalid JSON" (.errorf m))) ∧
      GetTokens url (.response 200 status (.decoded tr)) = .ok tr := by
  intro url status m e code body tr
  refine ⟨⟨rfl, ?_⟩, fun hc => ⟨by simp [GetTokens, hc], rfl⟩,
    ⟨by simp [GetTokens, parseJSON], rfl⟩,
    by simp [GetTokens, parseJSON], by simp [GetTokens, parseJSON]⟩
  simp [IsNetworkError, hasNetworkErrorType]

theorem getTokens_classification_witness :
    GetTokens "http://backend/api/v2"
        (.response 500 "500 Internal Server Error" .emptyBody)
      = .error (.apiError 500 "500 Internal Server Error"
          "http://backend/api/v2/tokens") ∧
    IsAPIError (.apiError 500 "500 Internal Server Error"
        "http://backend/api/v2/tokens") = true :=
  (getTokens_classification "http://backend/api/v2" "500 Internal Server Error"
      "x" (.errorf "refused") 500 .emptyBody ⟨GoSlice.nil⟩).2.1 (by decide)

/-- C8: the generic proxy relays a backend header entry (key with all
its values in order) exactly when the key is neither hop-by-hop nor
CORS; entries with a hop-by-hop or CORS key are omitted entirely; the
backend's status code is written unchanged. -/
theorem proxyRelay_header_hygiene :
    ∀ (resp : BackendResponse) (k : String) (vs : List String),
      ((k, vs) ∈ (proxyRelay resp).headers ↔
        ((k, vs) ∈ resp.headers ∧ isHopByHopHeader k = false ∧
          isCORSHeader k = false)) ∧
      ((isHopByHopHeader k = true ∨ isCORSHeader k = true) →
        (k, vs) ∉ (proxyRelay resp).headers) ∧
      (proxyRelay resp).statusCode = resp.statusCode := by
  intro resp k vs
  have hmem : (k, vs) ∈ (proxyRelay resp).headers ↔
      ((k, vs) ∈ resp.headers ∧ isHopByHopHeader k = false ∧
        isCORSHeader k = false) := by
    simp [proxyRelay, copyHeaders, List.mem_filter, Bool.and_eq_true,
      Bool.not_eq_true', and_assoc]
  refine ⟨hmem, ?_, rfl⟩
  intro hban hmem2
  rcases hmem.mp hmem2 with ⟨_, h1, h2⟩
  rcases hban with hb | hb
  · rw [hb] at h1; exact absurd h1 (by decide)
  · rw [hb] at h2; exact absurd h2 (by decide)

theorem proxyRelay_header_hygiene_witness :
    ("Connection", ["close"]) ∉
      (proxyRelay ⟨200,
        [("Connection", ["close"]), ("Content-Type", ["application/json"])],
        "ok"⟩).headers :=
  (proxyRelay_header_hygiene
      ⟨200, [("Connection", ["close"]), ("Content-Type", ["application/json"])],
        "ok"⟩
      "Connection" ["close"]).2.1 (Or.inl (by decide))

/-- C9: `AddAddress ""` fails and leaves the whitelist unchanged; adding
a non-empty address already present fails with the "already exists"
error and leaves the whitelist unchanged (so a second identical add
fails); adding a non-empty absent address succeeds and appends it; and
`RemoveAddress` returns true exactly when the address was present
(removing one occurrence of it), and returns false with no state change
when it was absent. -/
theorem addAddress_removeAddress_semantics :
    ∀ (tw : TokenWhitelist) (a : String),
      AddAddress tw "" = (some "address cannot be empty", tw) ∧
      (a ≠ "" → Contains tw a = true →
        AddAddress tw a
          = (some ("address " ++ a ++ " already exists in whitelist"), tw)) ∧
      (a ≠ "" → Contains tw a = false →
        (AddAddress tw a).1 = none ∧
        (AddAddress tw a).2.addresses.toList = tw.addresses.toList ++ [a] ∧
        (AddAddress (AddAddress tw a).2 a).1
          = some ("address " ++ a ++ " already exists in whitelist")) ∧
      ((RemoveAddress tw a).1 = Contains tw a) ∧
      (Contains tw a = false → RemoveAddress tw a = (false, tw)) ∧
      (Contains tw a = true →
        (RemoveAddress tw a).2.addresses.toList.count a
          = tw.addresses.toList.count a - 1) := by
  intro tw a
  refine ⟨by simp [AddAddress], ?_, ?_, ?_, ?_, ?_⟩
  · intro ha hc
    have hc' : tw.addresses.toList.any (fun addr => addr == a) = true := hc
    simp [AddAddress, ha, hc']
  · intro ha hc
    have hc' : tw.addresses.toList.any (fun addr => addr == a) = false := hc
    have hpush : (tw.addresses.push a).toList.any (fun addr => addr == a)
        = true := by
      rw [GoSlice.toList_push]; simp
    refine ⟨by simp [AddAddress, ha, hc'], ?_, ?_⟩
    · simp [AddAddress, ha, hc', GoSlice.toList_push]
    · simp [AddAddress, ha, hc', hpush]
  · cases htw : tw.addresses with
    | nil => simp [RemoveAddress, Contains, htw, GoSlice.toList]
    | ofList l =>
      cases hr : removeFirst l a with
      | none =>
        have hany := (removeFirst_eq_none_iff l a).mp hr
        simp [RemoveAddress, Contains, htw, hr, GoSlice.toList, hany]
      | some l2 =>
        have hany : l.any (fun x => x == a) = true := by
          cases hA : l.any (fun x => x == a) with
          | true => rfl
          | false =>
            rw [(removeFirst_eq_none_iff l a).mpr hA] at hr
            cases hr
        simp [RemoveAddress, Contains, htw, hr, GoSlice.toList, hany]
  · intro hc
    cases htw : tw.addresses with
    | nil => simp [RemoveAddress, htw]
    | ofList l =>
      have hany : l.any (fun x => x == a) = false := by
        have hc' := hc
        rw [Contains, htw] at hc'
        exact hc'
      simp [RemoveAddress, htw, (removeFirst_eq_none_iff l a).mpr hany]
  · intro hc
    cases htw : tw.addresses with
    | nil =>
      rw [Contains, htw] at hc
      simp [GoSlice.toList] at hc
    | ofList l =>
      have hany : l.any (fun x => x == a) = true := by
        have hc' := hc
        rw [Contains, htw] at hc'
        exact hc'
      cases hr : removeFirst l a with
      | none =>
        rw [(removeFirst_eq_none_iff l a).mp hr] at hany
        cases hany
      | some l2 =>
        have hcount := removeFirst_count l a l2 hr
        simp [RemoveAddress, htw, hr, GoSlice.toList, hcount]

theorem addAddress_removeAddress_semantics_witness :
    (AddAddress ⟨.ofList ["x"]⟩ "x"
      = (some ("address " ++ "x" ++ " already exists in whitelist"),
          ⟨.ofList ["x"]⟩)) ∧
    ((AddAddress ⟨.ofList []⟩ "x").1 = none ∧
      (AddAddress ⟨.ofList []⟩ "x").2.addresses.toList
        = (GoSlice.ofList ([] : List String)).toList ++ ["x"] ∧
      (AddAddress (AddAddress ⟨.ofList []⟩ "x").2 "x").1
        = some ("address " ++ "x" ++ " already exists in whitelist")) ∧
    RemoveAddress ⟨.ofList ["y"]⟩ "x" = (false, ⟨.ofList ["y"]⟩) ∧
    (RemoveAddress ⟨.ofList ["x", "y"]⟩ "x").2.addresses.toList.count "x"
      = (GoSlice.ofList ["x", "y"]).toList.count "x" - 1 :=
  ⟨(addAddress_removeAddress_semantics ⟨.ofList ["x"]⟩ "x").2.1
      (by decide) (by decide),
   (addAddress_removeAddress_semantics ⟨.ofList []⟩ "x").2.2.1
      (by decide) (by decide),
   (addAddress_removeAddress_semantics ⟨.ofList ["y"]⟩ "x").2.2.2.2.1
      (by decide),
   (addAddress_removeAddress_semantics ⟨.ofList ["x", "y"]⟩ "x").2.2.2.2.2
      (by decide)⟩

/-- C10: starting from `NewTokenWhitelist`, after any finite sequence of
`LoadFromJSON` (successful or failed), `AddAddress`, `RemoveAddress`
and `Clear` calls, the `Addresses` slice is never nil, so `Validate`'s
"addresses slice is nil" branch is unreachable on every state reachable
from the constructor. -/
theorem whitelist_addresses_never_nil :
    ∀ ops : List WhitelistOp,
      (applyOps NewTokenWhitelist ops).addresses.isNil = false ∧
      Validate (applyOps NewTokenWhitelist ops)
        ≠ some "addresses slice is nil" := by
  intro ops
  have hnil : (applyOps NewTokenWhitelist ops).addresses.isNil = false :=
    applyOps_notNil ops NewTokenWhitelist rfl
  refine ⟨hnil, ?_⟩
  cases hcase : (applyOps NewTokenWhitelist ops).addresses with
  | nil => rw [hcase] at hnil; simp [GoSlice.isNil] at hnil
  | ofList l =>
    rw [Validate, hcase]
    exact validateAddrs_ne_nilMsg l 0 []

end GoProxy
